import Mathlib

/-!
# Verification of the ephemeral MySQL database pool

This file is a shallow embedding of the `mysqlpool` package.  The repository
snapshot contains several revisions of `pool.go`; the definitions below model
the latest revision — the one with the `closed` flag, the `allDB` list, the
`ErrClosed` sentinel and the deferred restoration of session settings in
`resetDB` / `listNonEmptyTables`.

Modelling choices:

* A `*sql.DB` handle is modelled by `Handle`: an identity (`id`) plus the name
  of the database its connections are bound to (`name`, what the engine's
  `SELECT DATABASE()` reports for it).
* All network round trips (creating/dropping a database, executing the DDL,
  opening connectors, resetting a handle, closing a connection) may fail at the
  engine's whim, so each call site's outcome is supplied explicitly through an
  "outcome" record (`GetOutcome`, `CloseOutcome`, …).  An outcome of `none`
  means the round trip succeeded; `some e` means it failed with error `e`.
* `Sim` carries the pool's fields together with the state of the backing
  engine (the set of database names the pool has created that currently
  exist) and ghost history fields recording which statements were issued
  (`created`, `dropped`, `resets`, `closedConns`, `adminClosed`).  The ghost
  fields never influence control flow; they only record what happened.
* The statement-level behaviour of `resetDB` and `listNonEmptyTables`
  (foreign-key toggling, the `information_schema_stats_expiry` save/restore
  and the `defer`red error handling) is modelled separately at the granularity
  of the SQL statements those functions execute on their connections.
-/

/-- Errors surfaced by the pool.  `errClosed` models the package-level
`ErrClosed` sentinel; `engineErr` models an arbitrary error returned by the
backing engine or the driver, distinguished by a numeric code. -/
inductive SqlError where
  | errClosed
  | engineErr (code : Nat)
deriving DecidableEq, Repr

/-- A `*sql.DB` handle produced by the pool: an identity plus the database
name its connections are bound to (what `SELECT DATABASE()` returns on it). -/
structure Handle where
  id : Nat
  name : String
deriving DecidableEq, Repr

/-- The mutable fields of the Go `Pool` struct (the configuration template and
DDL string do not influence the control flow modelled here). -/
structure Pool where
  closed : Bool
  adminDB : Option Unit
  freeDB : List Handle
  allDB : List Handle
deriving DecidableEq, Repr

/-- Pool state together with engine state and ghost history fields. -/
structure Sim where
  pool : Pool
  /-- Database names created by this pool that currently exist on the engine. -/
  databases : List String
  /-- Ghost: names for which a `CREATE DATABASE` statement succeeded. -/
  created : List String
  /-- Ghost: names for which a `DROP DATABASE` statement was issued. -/
  dropped : List String
  /-- Ghost: handles on which `resetDB` was invoked. -/
  resets : List Handle
  /-- Ghost: handles whose connection was closed. -/
  closedConns : List Handle
  /-- Ghost: whether the administrative connection was closed. -/
  adminClosed : Bool
  /-- Fresh-identity counter for newly opened handles. -/
  nextId : Nat
deriving DecidableEq, Repr

/-- The state of a pool that was just constructed by the caller. -/
def initSim : Sim :=
  { pool := { closed := false, adminDB := none, freeDB := [], allDB := [] }
    databases := [], created := [], dropped := [], resets := []
    closedConns := [], adminClosed := false, nextId := 0 }

/-! ## Database-name generation (`createDB`'s `fmt.Sprintf("test_%x", buf)`) -/

/-- Lowercase hexadecimal digit for `n < 16`, as Go's `%x` verb prints it. -/
def hexDigit (n : Nat) : Char :=
  if n < 10 then Char.ofNat (48 + n) else Char.ofNat (87 + n)

/-- Go's `%x` on a byte: two lowercase hex digits, zero padded. -/
def byteHex (b : Nat) : List Char :=
  [hexDigit (b / 16), hexDigit (b % 16)]

/-- Go's `%x` on a byte slice: the bytes' hex digit pairs, concatenated. -/
def hexEncode (bs : List Nat) : String :=
  ⟨bs.flatMap byteHex⟩

/-- The database name `createDB` builds: `fmt.Sprintf("test_%x", buf)` where
`buf` holds the random bytes. -/
def dbNameOf (bs : List Nat) : String :=
  "test_" ++ hexEncode bs

/-! ## `Get` and its helpers (`getAdminDB`, `createDB`, `initDB`, `new`) -/

/-- Outcomes of the network round trips one call to `Get` can perform. -/
structure GetOutcome where
  /-- Outcome of `resetDB` on the popped handle (fast path). -/
  resetErr : Option SqlError
  /-- Outcome of `mysql.NewConnector` inside `getAdminDB`. -/
  adminConnectErr : Option SqlError
  /-- Outcome of `rand.Read` inside `createDB`. -/
  randErr : Option SqlError
  /-- The 8 random bytes `rand.Read` fills `buf` with. -/
  randBytes : List Nat
  /-- Outcome of the `CREATE DATABASE` statement. -/
  createErr : Option SqlError
  /-- Outcome of `mysql.NewConnector` inside `initDB`. -/
  initConnectErr : Option SqlError
  /-- Outcome of executing the DDL script inside `initDB`. -/
  initErr : Option SqlError
  /-- Outcome of `mysql.NewConnector` for the handle returned by `new`. -/
  connectErr : Option SqlError

/-- `Pool.getAdminDB`: return the memoized administrative connection, or
construct one with no database selected and memoize it. -/
def getAdminDB (o : GetOutcome) (s : Sim) : Except SqlError Unit × Sim :=
  match s.pool.adminDB with
  | some _ => (.ok (), s)
  | none =>
    match o.adminConnectErr with
    | some e => (.error e, s)
    | none => (.ok (), { s with pool := { s.pool with adminDB := some () } })

/-- `Pool.createDB`: obtain the admin connection, draw 8 random bytes, build
the name `test_%x` and issue `CREATE DATABASE`. -/
def createDB (o : GetOutcome) (s : Sim) : Except SqlError String × Sim :=
  match getAdminDB o s with
  | (.error e, s) => (.error e, s)
  | (.ok _, s) =>
    match o.randErr with
    | some e => (.error e, s)
    | none =>
      let dbName := dbNameOf o.randBytes
      match o.createErr with
      | some e => (.error e, s)
      | none =>
        (.ok dbName,
          { s with databases := s.databases ++ [dbName]
                   created := s.created ++ [dbName] })

/-- `Pool.new`: create a database, initialize it with the DDL over a scratch
connection, then open the long-lived handle bound to it. -/
def new (o : GetOutcome) (s : Sim) : Except SqlError Handle × Sim :=
  match createDB o s with
  | (.error e, s) => (.error e, s)
  | (.ok dbName, s) =>
    match o.initConnectErr with
    | some e => (.error e, s)
    | none =>
      match o.initErr with
      | some e => (.error e, s)
      | none =>
        match o.connectErr with
        | some e => (.error e, s)
        | none =>
          (.ok ⟨s.nextId, dbName⟩, { s with nextId := s.nextId + 1 })

namespace Pool

/-- `Pool.Get`: fail with `ErrClosed` on a closed pool; otherwise pop the last
element of the free list (`freeDB[len-1]` / `freeDB[:len-1]`) and reset it, or
— when the free list is empty — build a fresh handle via `new` and record it
in `allDB`. -/
def Get (o : GetOutcome) (s : Sim) : Except SqlError Handle × Sim :=
  if s.pool.closed then (.error .errClosed, s)
  else
    match s.pool.freeDB.getLast? with
    | some db =>
      let s := { s with pool := { s.pool with freeDB := s.pool.freeDB.dropLast }
                        resets := s.resets ++ [db] }
      match o.resetErr with
      | some e => (.error e, s)
      | none => (.ok db, s)
    | none =>
      match new o s with
      | (.error e, s) => (.error e, s)
      | (.ok db, s) =>
        (.ok db, { s with pool := { s.pool with allDB := s.pool.allDB ++ [db] } })

/-- `Pool.Put`: a no-op on a closed pool; otherwise append the handle to the
free list. -/
def Put (h : Handle) (s : Sim) : Sim :=
  if s.pool.closed then s
  else { s with pool := { s.pool with freeDB := s.pool.freeDB ++ [h] } }

end Pool

/-! ## `Close` and `dropDB` -/

/-- Outcomes of the round trips one call to `Close` can perform. -/
structure CloseOutcome where
  /-- Outcome of `SELECT DATABASE()` + `Scan` inside `dropDB`, per handle. -/
  nameQueryErr : Handle → Option SqlError
  /-- Outcome of the `DROP DATABASE` statement, per handle. -/
  dropErr : Handle → Option SqlError
  /-- Outcome of `db.Close()`, per handle. -/
  closeErr : Handle → Option SqlError
  /-- Outcome of `adminDB.Close()`. -/
  adminCloseErr : Option SqlError

/-- `dropDB`: read the connection's current database name, then issue
`DROP DATABASE` for it.  The drop statement is issued (recorded in `dropped`)
only if the name query succeeded; the database disappears from the engine only
if the drop itself succeeded. -/
def dropDB (co : CloseOutcome) (h : Handle) (s : Sim) : Option SqlError × Sim :=
  match co.nameQueryErr h with
  | some e => (some e, s)
  | none =>
    let s := { s with dropped := s.dropped ++ [h.name] }
    match co.dropErr h with
    | some e => (some e, s)
    | none => (none, { s with databases := s.databases.filter (· ≠ h.name) })

/-- The loop body of `Close`: for every handle in `allDB`, run `dropDB`, then
close its connection, collecting every error encountered. -/
def closeLoop (co : CloseOutcome) (hs : List Handle) (s : Sim)
    (errs : List SqlError) : List SqlError × Sim :=
  match hs with
  | [] => (errs, s)
  | h :: t =>
    let (de, s1) := dropDB co h s
    let s2 := { s1 with closedConns := s1.closedConns ++ [h] }
    closeLoop co t s2 (errs ++ de.toList ++ (co.closeErr h).toList)

namespace Pool

/-- `Pool.Close`: a no-op returning no error when already closed; otherwise
mark the pool closed, drop and close every handle in `allDB` collecting all
errors, close the administrative connection if one exists, and return the
collected errors (`[]` models a `nil` combined error, a non-empty list models
`errors.Join`). -/
def Close (co : CloseOutcome) (s : Sim) : List SqlError × Sim :=
  if s.pool.closed then ([], s)
  else
    let s := { s with pool := { s.pool with closed := true } }
    let (errs, s) := closeLoop co s.pool.allDB s []
    match s.pool.adminDB with
    | some _ =>
      (errs ++ co.adminCloseErr.toList, { s with adminClosed := true })
    | none => (errs, s)

end Pool

/-! ## Executions: sequences of `Get`/`Put` commands -/

/-- One caller-issued command: a `Get` (with the outcomes of its round trips)
or a `Put` of some handle. -/
inductive Cmd where
  | get (o : GetOutcome)
  | put (h : Handle)

/-- Run a sequence of `Get`/`Put` commands, discarding `Get` results. -/
def runCmds : List Cmd → Sim → Sim
  | [], s => s
  | .get o :: rest, s => runCmds rest (Pool.Get o s).2
  | .put h :: rest, s => runCmds rest (Pool.Put h s)

/-- A `Get` whose every round trip succeeds, drawing all-zero random bytes. -/
def allOkGet : GetOutcome :=
  { resetErr := none, adminConnectErr := none
    randErr := none, randBytes := [0, 0, 0, 0, 0, 0, 0, 0], createErr := none
    initConnectErr := none, initErr := none, connectErr := none }

/-! ## Statement-level model of `listNonEmptyTables` and `resetDB`

Both functions open a connection of their own and execute SQL statements on
it; both restore the session setting they change through a `defer` that
overwrites the named return error only when it is still `nil` (first error
wins).  `LStmt`/`RStmt` record the statements each function executes on its
connection, in order. -/

/-- Statements `listNonEmptyTables` executes on its connection. -/
inductive LStmt where
  /-- `SELECT @@information_schema_stats_expiry`. -/
  | readExpiry
  /-- `SET information_schema_stats_expiry = v`. -/
  | setExpiry (v : Int)
  /-- The `information_schema.tables` query. -/
  | queryTables
  /-- `conn.Close()`. -/
  | closeConn
deriving DecidableEq, Repr

/-- Outcomes of the round trips one call to `listNonEmptyTables` performs. -/
structure ListOutcome where
  /-- Outcome of `db.Conn(ctx)`. -/
  connErr : Option SqlError
  /-- Outcome of reading `@@information_schema_stats_expiry` and scanning it. -/
  expiryReadErr : Option SqlError
  /-- Outcome of `SET information_schema_stats_expiry = 0`. -/
  setZeroErr : Option SqlError
  /-- Outcome of the `information_schema.tables` query itself. -/
  queryErr : Option SqlError
  /-- Outcomes of scanning each returned row (a table name, or a scan error). -/
  rowScans : List (Except SqlError String)
  /-- Outcome of the deferred `SET information_schema_stats_expiry = expiry`. -/
  restoreErr : Option SqlError

/-- Result of `listNonEmptyTables`: the returned table list (`none` models a
`nil` slice returned together with an error), the returned error, the
statements executed on the connection, and the session's final value of
`information_schema_stats_expiry` (whose initial value is `e0`). -/
structure ListRes where
  tables : Option (List String)
  err : Option SqlError
  stmts : List LStmt
  finalExpiry : Int
deriving DecidableEq, Repr

/-- The `rows.Next()` / `rows.Scan(&table)` loop: the collected table names,
or the first scan error. -/
def scanRows : List (Except SqlError String) → Except SqlError (List String)
  | [] => .ok []
  | .error e :: _ => .error e
  | .ok t :: rest =>
    match scanRows rest with
    | .error e => .error e
    | .ok ts => .ok (t :: ts)

/-- `listNonEmptyTables`: read the current `information_schema_stats_expiry`,
set it to `0`, run the metadata query and scan its rows, and — through a
`defer` registered once the setting was successfully changed — restore the
original value on every subsequent exit path, overwriting the returned error
only when it is still `nil`. -/
def listNonEmptyTables (o : ListOutcome) (e0 : Int) : ListRes :=
  match o.connErr with
  | some e => ⟨none, some e, [], e0⟩
  | none =>
    match o.expiryReadErr with
    | some e => ⟨none, some e, [.readExpiry, .closeConn], e0⟩
    | none =>
      match o.setZeroErr with
      | some e => ⟨none, some e, [.readExpiry, .setExpiry 0, .closeConn], e0⟩
      | none =>
        -- the session's expiry is now 0 and the restoring defer is registered
        match o.queryErr with
        | some e =>
          ⟨none, some e,
            [.readExpiry, .setExpiry 0, .queryTables, .setExpiry e0, .closeConn],
            if o.restoreErr = none then e0 else 0⟩
        | none =>
          match scanRows o.rowScans with
          | .error e =>
            ⟨none, some e,
              [.readExpiry, .setExpiry 0, .queryTables, .setExpiry e0, .closeConn],
              if o.restoreErr = none then e0 else 0⟩
          | .ok ts =>
            ⟨some ts, o.restoreErr,
              [.readExpiry, .setExpiry 0, .queryTables, .setExpiry e0, .closeConn],
              if o.restoreErr = none then e0 else 0⟩

/-- Statements `resetDB` executes on its own connection. -/
inductive RStmt where
  /-- `SET FOREIGN_KEY_CHECKS = v`. -/
  | setFK (v : Nat)
  /-- `TRUNCATE TABLE t`. -/
  | truncate (t : String)
  /-- `conn.Close()`. -/
  | closeConn
deriving DecidableEq, Repr

/-- Outcomes of the round trips one call to `resetDB` performs (beyond the
inner `listNonEmptyTables` call, whose outcomes are in `listO`). -/
structure ResetOutcome where
  /-- Outcomes for the inner `listNonEmptyTables` call. -/
  listO : ListOutcome
  /-- Outcome of `resetDB`'s own `db.Conn(ctx)`. -/
  connErr : Option SqlError
  /-- Outcome of `SET FOREIGN_KEY_CHECKS = 0`. -/
  fkOffErr : Option SqlError
  /-- Outcome of `TRUNCATE TABLE t`, per table name. -/
  truncErr : String → Option SqlError
  /-- Outcome of the deferred `SET FOREIGN_KEY_CHECKS = 1`. -/
  fkOnErr : Option SqlError

/-- Result of `resetDB`: the returned error, the statements executed on its
connection, the session's final `FOREIGN_KEY_CHECKS` value (initially `1`),
and the inner `listNonEmptyTables` result. -/
structure ResetRes where
  err : Option SqlError
  stmts : List RStmt
  finalFK : Nat
  listRes : ListRes
deriving DecidableEq, Repr

/-- The truncation loop: issue `TRUNCATE TABLE` per table in order, stopping
at the first failure; returns the statements issued and the first error. -/
def truncLoop (f : String → Option SqlError) : List String → List RStmt × Option SqlError
  | [] => ([], none)
  | t :: rest =>
    match f t with
    | some e => ([.truncate t], some e)
    | none =>
      let (sts, r) := truncLoop f rest
      (.truncate t :: sts, r)

/-- `resetDB`: list the non-empty tables, disable foreign-key checks, truncate
every listed table, and — through a `defer` registered once the checks were
successfully disabled — re-enable them on every subsequent exit path,
overwriting the returned error only when it is still `nil`. -/
def resetDB (o : ResetOutcome) (e0 : Int) : ResetRes :=
  let lr := listNonEmptyTables o.listO e0
  match lr.err with
  | some e => ⟨some e, [], 1, lr⟩
  | none =>
    let tables := lr.tables.getD []
    match o.connErr with
    | some e => ⟨some e, [], 1, lr⟩
    | none =>
      match o.fkOffErr with
      | some e => ⟨some e, [.setFK 0, .closeConn], 1, lr⟩
      | none =>
        -- the session's FK checks are now off and the restoring defer is registered
        let (tsts, te) := truncLoop o.truncErr tables
        let err := match te with
          | some e => some e
          | none => o.fkOnErr
        ⟨err, .setFK 0 :: tsts ++ [.setFK 1, .closeConn],
          if o.fkOnErr = none then 1 else 0, lr⟩

/-! ## Concrete inputs used by witnesses and invariant definitions -/

/-- A `Close` whose every round trip succeeds. -/
def okCloseDummy : CloseOutcome :=
  { nameQueryErr := fun _ => none, dropErr := fun _ => none
    closeErr := fun _ => none, adminCloseErr := none }

/-- An open pool holding two distinct free handles. -/
def lifoSim : Sim :=
  { pool := { closed := false, adminDB := some ()
              freeDB := [⟨0, "test_00"⟩, ⟨1, "test_01"⟩]
              allDB := [⟨0, "test_00"⟩, ⟨1, "test_01"⟩] }
    databases := ["test_00", "test_01"], created := ["test_00", "test_01"]
    dropped := [], resets := [], closedConns := [], adminClosed := false
    nextId := 2 }

/-- A `Get` whose reset fails with engine error 7. -/
def resetFailGet : GetOutcome :=
  { allOkGet with resetErr := some (.engineErr 7) }

/-- The error `dropDB` surfaces for a handle: the name-query error when the
`SELECT DATABASE()` scan fails, otherwise the `DROP DATABASE` error. -/
def dropDBErr (co : CloseOutcome) (h : Handle) : Option SqlError :=
  match co.nameQueryErr h with
  | some e => some e
  | none => co.dropErr h

/-- Spec-level description of the combined error `Close` returns: for every
handle ever created, in order, its drop error followed by its connection-close
error — every failure is kept, none stops the iteration — and finally the
administrative connection's close error when that connection was created. -/
def closeSpecErrs (co : CloseOutcome) (hs : List Handle)
    (adminPresent : Bool) : List SqlError :=
  hs.flatMap (fun h => (dropDBErr co h).toList ++ (co.closeErr h).toList)
    ++ (if adminPresent then co.adminCloseErr.toList else [])

/-- A `Close` outcome with several failing round trips, used as a witness. -/
def mixedClose : CloseOutcome :=
  { nameQueryErr := fun h => if h.id = 0 then some (.engineErr 1) else none
    dropErr := fun h => if h.id = 1 then some (.engineErr 2) else none
    closeErr := fun h => if h.id = 1 then some (.engineErr 3) else none
    adminCloseErr := some (.engineErr 4) }

/-- A `listNonEmptyTables` run whose metadata query fails. -/
def listOkOutcome : ListOutcome :=
  { connErr := none, expiryReadErr := none, setZeroErr := none
    queryErr := some (.engineErr 5), rowScans := [], restoreErr := none }

/-- A `resetDB` run that lists two tables and fails truncating the second. -/
def resetWitOutcome : ResetOutcome :=
  { listO := { connErr := none, expiryReadErr := none, setZeroErr := none
               queryErr := none, restoreErr := none
               rowScans := [.ok "parent", .ok "child"] }
    connErr := none, fkOffErr := none
    truncErr := fun t => if t = "child" then some (.engineErr 6) else none
    fkOnErr := none }

/-- A `Get` outcome that never fails after its `CREATE DATABASE` succeeded:
the DDL initialization and both connector openings succeed. -/
def Leakfree (o : GetOutcome) : Prop :=
  o.initConnectErr = none ∧ o.initErr = none ∧ o.connectErr = none

/-- Invariant tying the engine state to the pool's bookkeeping: the pool is
open, and every database name that was successfully created — as well as
every pool database still on the engine — is the name of a handle recorded in
`allDB`. -/
def CleanupInv (s : Sim) : Prop :=
  s.pool.closed = false
  ∧ (∀ n ∈ s.created, n ∈ s.pool.allDB.map Handle.name)
  ∧ (∀ n ∈ s.databases, n ∈ s.pool.allDB.map Handle.name)

/-- A `Get` whose `CREATE DATABASE` succeeds but whose DDL execution fails. -/
def initFailGet : GetOutcome :=
  { allOkGet with initErr := some (.engineErr 1) }

/-! ## Supporting lemmas -/

/-- `closeLoop` only touches the engine/ghost fields, never the pool struct. -/
theorem closeLoop_pool (co : CloseOutcome) (hs : List Handle) (s : Sim)
    (errs : List SqlError) : (closeLoop co hs s errs).2.pool = s.pool := by
  induction hs generalizing s errs with
  | nil => rfl
  | cons h t ih =>
    simp only [closeLoop, dropDB]
    cases co.nameQueryErr h <;> cases co.dropErr h <;> simp [ih]

/-- `Close` leaves the pool marked closed, whatever state it started from. -/
theorem close_marks_closed (co : CloseOutcome) (s : Sim) :
    (Pool.Close co s).2.pool.closed = true := by
  unfold Pool.Close
  by_cases hc : s.pool.closed
  · simp [hc]
  · simp only [hc, if_neg, Bool.false_eq_true, not_false_iff, if_false]
    have hpool := closeLoop_pool co s.pool.allDB
      { s with pool := { s.pool with closed := true } } []
    cases hloop : closeLoop co s.pool.allDB
        { s with pool := { s.pool with closed := true } } [] with
    | mk errs s' =>
      rw [hloop] at hpool
      cases hadmin : s'.pool.adminDB <;> simp_all

/-! ## C5: `Get` on a closed pool -/

/-- C5: a `Get` on a closed pool returns the `ErrClosed` error and leaves the
entire state — free list, all-handles list, engine databases — untouched; in
particular no database is created. -/
theorem get_after_close_errors (o : GetOutcome) (s : Sim)
    (hclosed : s.pool.closed = true) :
    Pool.Get o s = (.error .errClosed, s) := by
  simp [Pool.Get, hclosed]

/-- Closed-statement witness for `get_after_close_errors`. -/
theorem get_after_close_errors_witness :
    (Pool.Close okCloseDummy initSim).2.pool.closed = true
    ∧ Pool.Get allOkGet (Pool.Close okCloseDummy initSim).2 =
        (.error .errClosed, (Pool.Close okCloseDummy initSim).2) :=
  ⟨by decide, get_after_close_errors allOkGet _ (by decide)⟩

/-! ## C7: `Close` is idempotent -/

/-- C7: after any first `Close`, the pool is marked closed, and a second
`Close` is a no-op: it returns no error (`[]` models `nil`), performs no drop
or close operations, and returns the state unchanged. -/
theorem close_idempotent (co co' : CloseOutcome) (s : Sim) :
    (Pool.Close co s).2.pool.closed = true
    ∧ Pool.Close co' (Pool.Close co s).2 = ([], (Pool.Close co s).2) := by
  have h := close_marks_closed co s
  refine ⟨h, ?_⟩
  generalize (Pool.Close co s).2 = t at h ⊢
  simp [Pool.Close, h]

/-! ## C8: `Put` on a closed pool is a no-op, otherwise it appends -/

/-- C8: `Put` on a closed pool returns the state unchanged (no panic, no
error, free list untouched); `Put` on an open pool appends the handle to the
free list and has no other effect — in particular no reset is recorded. -/
theorem put_closed_noop_else_append (h : Handle) (s : Sim) :
    (s.pool.closed = true → Pool.Put h s = s)
    ∧ (s.pool.closed = false →
        Pool.Put h s =
          { s with pool := { s.pool with freeDB := s.pool.freeDB ++ [h] } }) := by
  constructor <;> intro hc <;> simp [Pool.Put, hc]

/-- Closed-statement witness for `put_closed_noop_else_append`. -/
theorem put_closed_noop_else_append_witness :
    initSim.pool.closed = false
    ∧ Pool.Put ⟨0, "test_00"⟩ initSim =
        { initSim with pool := { initSim.pool with freeDB := [⟨0, "test_00"⟩] } } :=
  ⟨by decide, (put_closed_noop_else_append ⟨0, "test_00"⟩ initSim).2 (by decide)⟩

/-! ## C9: format of generated database names -/

/-- Encoding a byte list yields two hex digits per byte. -/
theorem length_flatMap_byteHex (bs : List Nat) :
    (bs.flatMap byteHex).length = 2 * bs.length := by
  induction bs with
  | nil => rfl
  | cons b t ih => simp [byteHex, ih]; ring

/-- Every hex digit of a value below 16 is a lowercase hex character. -/
theorem hexDigit_mem : ∀ n < 16, hexDigit n ∈ "0123456789abcdef".data := by
  decide

/-- C9: the name `createDB` generates for 8 random bytes is the fixed literal
`test_` followed by exactly 16 characters, all drawn from the lowercase hex
alphabet `0123456789abcdef`. -/
theorem createDB_name_format (bs : List Nat) (hlen : bs.length = 8)
    (hbyte : ∀ b ∈ bs, b < 256) :
    (dbNameOf bs).data = "test_".data ++ (hexEncode bs).data
    ∧ (hexEncode bs).data.length = 16
    ∧ ∀ c ∈ (hexEncode bs).data, c ∈ "0123456789abcdef".data := by
  refine ⟨by simp [dbNameOf, String.data_append], ?_, ?_⟩
  · show (bs.flatMap byteHex).length = 16
    rw [length_flatMap_byteHex, hlen]
  · intro c hc
    have hc' : c ∈ bs.flatMap byteHex := hc
    rw [List.mem_flatMap] at hc'
    obtain ⟨b, hb, hcb⟩ := hc'
    have hb256 := hbyte b hb
    simp only [byteHex, List.mem_cons, List.mem_singleton, List.not_mem_nil,
      or_false] at hcb
    rcases hcb with hx | hx <;> subst hx
    · exact hexDigit_mem _ (Nat.div_lt_of_lt_mul (by omega))
    · exact hexDigit_mem _ (Nat.mod_lt _ (by norm_num))

/-- Closed-statement witness for `createDB_name_format`. -/
theorem createDB_name_format_witness :
    ([0, 17, 34, 51, 68, 85, 102, 119] : List Nat).length = 8
    ∧ (∀ b ∈ ([0, 17, 34, 51, 68, 85, 102, 119] : List Nat), b < 256)
    ∧ ((dbNameOf [0, 17, 34, 51, 68, 85, 102, 119]).data =
          "test_".data ++ (hexEncode [0, 17, 34, 51, 68, 85, 102, 119]).data
        ∧ (hexEncode [0, 17, 34, 51, 68, 85, 102, 119]).data.length = 16
        ∧ ∀ c ∈ (hexEncode [0, 17, 34, 51, 68, 85, 102, 119]).data,
            c ∈ "0123456789abcdef".data) :=
  ⟨by decide, by decide,
    createDB_name_format [0, 17, 34, 51, 68, 85, 102, 119] (by decide) (by decide)⟩

/-! ## C3: `Get` pops the free list in LIFO order and resets the handle -/

/-- C3: on an open pool with free list `l ++ [h]`, a `Get` whose reset
succeeds returns exactly the most-recently-appended handle `h`, first removing
it from the free list (the new free list is `l`, one occurrence of `h` fewer)
and invoking `resetDB` on it before returning; it touches nothing else, and —
provided `h` occurred only once — `h` is no longer in the free list when it is
handed out. -/
theorem get_pops_lifo_and_resets (o : GetOutcome) (s : Sim) (l : List Handle)
    (h : Handle) (hopen : s.pool.closed = false)
    (hfree : s.pool.freeDB = l ++ [h]) (hreset : o.resetErr = none) :
    Pool.Get o s =
      (.ok h, { s with pool := { s.pool with freeDB := l }
                       resets := s.resets ++ [h] })
    ∧ (Pool.Get o s).2.pool.freeDB.count h + 1 = s.pool.freeDB.count h
    ∧ (s.pool.freeDB.count h = 1 → h ∉ (Pool.Get o s).2.pool.freeDB)
    ∧ (Pool.Get o s).2.pool.allDB = s.pool.allDB := by
  have hget : Pool.Get o s =
      (.ok h, { s with pool := { s.pool with freeDB := l }
                       resets := s.resets ++ [h] }) := by
    simp [Pool.Get, hopen, hfree, hreset, List.getLast?_concat,
      List.dropLast_concat]
  refine ⟨hget, ?_, ?_, ?_⟩
  · rw [hget, hfree]
    simp [List.count_append]
  · intro hone
    rw [hget]
    rw [hfree, List.count_append] at hone
    simp at hone
    intro hmem
    rw [List.count_eq_zero] at hone
    exact hone hmem
  · rw [hget]

/-- Closed-statement witness for `get_pops_lifo_and_resets`. -/
theorem get_pops_lifo_and_resets_witness :
    lifoSim.pool.closed = false
    ∧ lifoSim.pool.freeDB = [⟨0, "test_00"⟩] ++ [⟨1, "test_01"⟩]
    ∧ (allOkGet.resetErr = none)
    ∧ (Pool.Get allOkGet lifoSim).1 = .ok ⟨1, "test_01"⟩
    ∧ (Pool.Get allOkGet lifoSim).2.pool.freeDB = [⟨0, "test_00"⟩] :=
  ⟨by decide, by decide, by decide,
    by rw [(get_pops_lifo_and_resets allOkGet lifoSim [⟨0, "test_00"⟩]
        ⟨1, "test_01"⟩ (by decide) (by decide) (by decide)).1],
    by rw [(get_pops_lifo_and_resets allOkGet lifoSim [⟨0, "test_00"⟩]
        ⟨1, "test_01"⟩ (by decide) (by decide) (by decide)).1]⟩

/-! ## C4: a failing reset loses the popped handle -/

/-- C4: on an open pool with free list `l ++ [h]`, a `Get` whose reset fails
with `e` returns the error `e` and no handle; the popped handle is neither
returned nor re-added (the new free list is exactly `l`), no fresh database is
created, and `resetDB` was invoked exactly once on it — no retry. -/
theorem get_reset_failure_loses_handle (o : GetOutcome) (s : Sim)
    (l : List Handle) (h : Handle) (e : SqlError)
    (hopen : s.pool.closed = false) (hfree : s.pool.freeDB = l ++ [h])
    (hreset : o.resetErr = some e) :
    Pool.Get o s =
      (.error e, { s with pool := { s.pool with freeDB := l }
                          resets := s.resets ++ [h] })
    ∧ (s.pool.freeDB.count h = 1 → h ∉ (Pool.Get o s).2.pool.freeDB) := by
  have hget : Pool.Get o s =
      (.error e, { s with pool := { s.pool with freeDB := l }
                          resets := s.resets ++ [h] }) := by
    simp [Pool.Get, hopen, hfree, hreset, List.getLast?_concat,
      List.dropLast_concat]
  refine ⟨hget, fun hone => ?_⟩
  rw [hget]
  rw [hfree, List.count_append] at hone
  simp at hone
  intro hmem
  rw [List.count_eq_zero] at hone
  exact hone hmem

/-- Closed-statement witness for `get_reset_failure_loses_handle`. -/
theorem get_reset_failure_loses_handle_witness :
    lifoSim.pool.closed = false
    ∧ lifoSim.pool.freeDB = [⟨0, "test_00"⟩] ++ [⟨1, "test_01"⟩]
    ∧ resetFailGet.resetErr = some (.engineErr 7)
    ∧ (Pool.Get resetFailGet lifoSim).1 = .error (.engineErr 7)
    ∧ (Pool.Get resetFailGet lifoSim).2.pool.freeDB = [⟨0, "test_00"⟩] :=
  ⟨by decide, by decide, by decide,
    by rw [(get_reset_failure_loses_handle resetFailGet lifoSim [⟨0, "test_00"⟩]
        ⟨1, "test_01"⟩ (.engineErr 7) (by decide) (by decide) (by decide)).1],
    by rw [(get_reset_failure_loses_handle resetFailGet lifoSim [⟨0, "test_00"⟩]
        ⟨1, "test_01"⟩ (.engineErr 7) (by decide) (by decide) (by decide)).1]⟩

/-! ## C10: `Put` performs no membership check -/

/-- The fast path of `Get` in one equation: with the pool open, the free list
equal to `l ++ [h]` and a successful reset, `Get` pops and returns `h`. -/
theorem get_fast_path_ok (o : GetOutcome) (s : Sim) (l : List Handle)
    (h : Handle) (hopen : s.pool.closed = false)
    (hfree : s.pool.freeDB = l ++ [h]) (hr : o.resetErr = none) :
    Pool.Get o s =
      (.ok h, { s with pool := { s.pool with freeDB := l }
                       resets := s.resets ++ [h] }) := by
  simp [Pool.Get, hopen, hfree, hr, List.getLast?_concat, List.dropLast_concat]

/-- C10: `Put` never checks where a handle came from or whether it is already
free: on an open pool, putting the same handle `h` twice leaves two copies of
`h` on the free list, and the next two `Get` calls (with successful resets and
no other intervening operation) both return that same handle `h`. -/
theorem put_unchecked_double_put (s : Sim) (h : Handle) (o1 o2 : GetOutcome)
    (hopen : s.pool.closed = false) (hr1 : o1.resetErr = none)
    (hr2 : o2.resetErr = none) :
    (Pool.Put h (Pool.Put h s)).pool.freeDB = s.pool.freeDB ++ [h, h]
    ∧ (Pool.Get o1 (Pool.Put h (Pool.Put h s))).1 = .ok h
    ∧ (Pool.Get o2 (Pool.Get o1 (Pool.Put h (Pool.Put h s))).2).1 = .ok h := by
  have hp : Pool.Put h (Pool.Put h s) =
      { s with pool := { s.pool with freeDB := s.pool.freeDB ++ [h, h] } } := by
    simp [Pool.Put, hopen]
  have hget1 := get_fast_path_ok o1 (Pool.Put h (Pool.Put h s))
    (s.pool.freeDB ++ [h]) h (by rw [hp]; exact hopen) (by rw [hp]; simp) hr1
  have hc2 : (Pool.Get o1 (Pool.Put h (Pool.Put h s))).2.pool.closed = false := by
    rw [hget1, hp]; exact hopen
  have hf2 : (Pool.Get o1 (Pool.Put h (Pool.Put h s))).2.pool.freeDB =
      s.pool.freeDB ++ [h] := by
    rw [hget1]
  have hget2 := get_fast_path_ok o2 (Pool.Get o1 (Pool.Put h (Pool.Put h s))).2
    s.pool.freeDB h hc2 hf2 hr2
  exact ⟨by rw [hp], by rw [hget1], by rw [hget2]⟩

/-- Closed-statement witness for `put_unchecked_double_put`. -/
theorem put_unchecked_double_put_witness :
    lifoSim.pool.closed = false
    ∧ allOkGet.resetErr = none
    ∧ (Pool.Put ⟨9, "test_09"⟩ (Pool.Put ⟨9, "test_09"⟩ lifoSim)).pool.freeDB =
        lifoSim.pool.freeDB ++ [⟨9, "test_09"⟩, ⟨9, "test_09"⟩]
    ∧ (Pool.Get allOkGet
        (Pool.Put ⟨9, "test_09"⟩ (Pool.Put ⟨9, "test_09"⟩ lifoSim))).1 =
        .ok ⟨9, "test_09"⟩
    ∧ (Pool.Get allOkGet (Pool.Get allOkGet
        (Pool.Put ⟨9, "test_09"⟩ (Pool.Put ⟨9, "test_09"⟩ lifoSim))).2).1 =
        .ok ⟨9, "test_09"⟩ :=
  ⟨by decide, by decide,
    (put_unchecked_double_put lifoSim ⟨9, "test_09"⟩ allOkGet allOkGet
      (by decide) (by decide) (by decide)).1,
    (put_unchecked_double_put lifoSim ⟨9, "test_09"⟩ allOkGet allOkGet
      (by decide) (by decide) (by decide)).2.1,
    (put_unchecked_double_put lifoSim ⟨9, "test_09"⟩ allOkGet allOkGet
      (by decide) (by decide) (by decide)).2.2⟩

/-! ## C2: what the first `Close` does -/

/-- Behaviour of the `Close` loop: it collects exactly the per-handle drop and
close errors in order, closes every handle's connection, never touches the
admin-closed flag, only ever adds to the drop history, and issues a drop for
every handle whose name query succeeds. -/
theorem closeLoop_props (co : CloseOutcome) (hs : List Handle) (s : Sim)
    (errs : List SqlError) :
    (closeLoop co hs s errs).1 =
      errs ++ hs.flatMap (fun h => (dropDBErr co h).toList ++ (co.closeErr h).toList)
    ∧ (closeLoop co hs s errs).2.closedConns = s.closedConns ++ hs
    ∧ (closeLoop co hs s errs).2.adminClosed = s.adminClosed
    ∧ (∀ n ∈ s.dropped, n ∈ (closeLoop co hs s errs).2.dropped)
    ∧ (∀ h ∈ hs, co.nameQueryErr h = none →
        h.name ∈ (closeLoop co hs s errs).2.dropped) := by
  induction hs generalizing s errs with
  | nil => simp [closeLoop]
  | cons h t ih =>
    cases hq : co.nameQueryErr h with
    | some e =>
      have hstep : closeLoop co (h :: t) s errs =
          closeLoop co t { s with closedConns := s.closedConns ++ [h] }
            (errs ++ [e] ++ (co.closeErr h).toList) := by
        simp [closeLoop, dropDB, hq]
      rw [hstep]
      obtain ⟨i1, i2, i3, i4, i5⟩ :=
        ih { s with closedConns := s.closedConns ++ [h] }
          (errs ++ [e] ++ (co.closeErr h).toList)
      refine ⟨by rw [i1]; simp [dropDBErr, hq], by rw [i2]; simp, i3, i4, ?_⟩
      intro h' hh' hq'
      rcases List.mem_cons.mp hh' with rfl | hmem
      · rw [hq] at hq'; cases hq'
      · exact i5 h' hmem hq'
    | none =>
      cases hd : co.dropErr h with
      | some e =>
        have hstep : closeLoop co (h :: t) s errs =
            closeLoop co t
              { s with dropped := s.dropped ++ [h.name]
                       closedConns := s.closedConns ++ [h] }
              (errs ++ [e] ++ (co.closeErr h).toList) := by
          simp [closeLoop, dropDB, hq, hd]
        rw [hstep]
        obtain ⟨i1, i2, i3, i4, i5⟩ :=
          ih { s with dropped := s.dropped ++ [h.name]
                      closedConns := s.closedConns ++ [h] }
            (errs ++ [e] ++ (co.closeErr h).toList)
        refine ⟨by rw [i1]; simp [dropDBErr, hq, hd], by rw [i2]; simp, i3,
          ?_, ?_⟩
        · intro n hn
          exact i4 n (by simp [hn])
        · intro h' hh' hq'
          rcases List.mem_cons.mp hh' with rfl | hmem
          · exact i4 h'.name (by simp)
          · exact i5 h' hmem hq'
      | none =>
        have hstep : closeLoop co (h :: t) s errs =
            closeLoop co t
              { s with databases := s.databases.filter (· ≠ h.name)
                       dropped := s.dropped ++ [h.name]
                       closedConns := s.closedConns ++ [h] }
              (errs ++ (co.closeErr h).toList) := by
          simp [closeLoop, dropDB, hq, hd]
        rw [hstep]
        obtain ⟨i1, i2, i3, i4, i5⟩ :=
          ih { s with databases := s.databases.filter (· ≠ h.name)
                      dropped := s.dropped ++ [h.name]
                      closedConns := s.closedConns ++ [h] }
            (errs ++ (co.closeErr h).toList)
        refine ⟨by rw [i1]; simp [dropDBErr, hq, hd], by rw [i2]; simp, i3,
          ?_, ?_⟩
        · intro n hn
          exact i4 n (by simp [hn])
        · intro h' hh' hq'
          rcases List.mem_cons.mp hh' with rfl | hmem
          · exact i4 h'.name (by simp)
          · exact i5 h' hmem hq'

/-- C2: on its first invocation (pool not yet closed) `Close` marks the pool
closed, iterates every handle ever created — dropping its database first,
then closing its connection — accumulating every drop and close error instead
of stopping at the first, then closes the administrative connection when one
was created, and returns exactly the collected errors (`[]` models `nil`). -/
theorem close_first_invocation_spec (co : CloseOutcome) (s : Sim)
    (hopen : s.pool.closed = false) :
    (Pool.Close co s).1 = closeSpecErrs co s.pool.allDB s.pool.adminDB.isSome
    ∧ (Pool.Close co s).2.closedConns = s.closedConns ++ s.pool.allDB
    ∧ (∀ h ∈ s.pool.allDB, co.nameQueryErr h = none →
        h.name ∈ (Pool.Close co s).2.dropped)
    ∧ (Pool.Close co s).2.adminClosed = (s.pool.adminDB.isSome || s.adminClosed)
    ∧ (Pool.Close co s).2.pool.closed = true := by
  obtain ⟨i1, i2, i3, i4, i5⟩ := closeLoop_props co s.pool.allDB
    { s with pool := { s.pool with closed := true } } []
  have hpool := closeLoop_pool co s.pool.allDB
    { s with pool := { s.pool with closed := true } } []
  cases hloop : closeLoop co s.pool.allDB
      { s with pool := { s.pool with closed := true } } [] with
  | mk errsL s2 =>
    rw [hloop] at i1 i2 i3 i4 i5 hpool
    have i1' : errsL = s.pool.allDB.flatMap
        (fun h => (dropDBErr co h).toList ++ (co.closeErr h).toList) := by
      simpa using i1
    have i2' : s2.closedConns = s.closedConns ++ s.pool.allDB := by
      simpa using i2
    have i3' : s2.adminClosed = s.adminClosed := by simpa using i3
    have hpool' : s2.pool =
        { closed := true, adminDB := s.pool.adminDB
          freeDB := s.pool.freeDB, allDB := s.pool.allDB } := by
      simpa using hpool
    have hclose : Pool.Close co s =
        match s2.pool.adminDB with
        | some _ => (errsL ++ co.adminCloseErr.toList, { s2 with adminClosed := true })
        | none => (errsL, s2) := by
      simp [Pool.Close, hopen, hloop]
    have hadmin2 : s2.pool.adminDB = s.pool.adminDB := by rw [hpool']
    rw [hclose, hadmin2]
    cases ha : s.pool.adminDB with
    | some u =>
      refine ⟨by simp [closeSpecErrs, i1'], by simpa using i2', ?_, by simp,
        by simp [hpool']⟩
      intro h hh hq
      exact i5 h hh hq
    | none =>
      refine ⟨by simp [closeSpecErrs, i1'], by simpa using i2', ?_,
        by simpa using i3', by simp [hpool']⟩
      intro h hh hq
      exact i5 h hh hq

/-- Closed-statement witness for `close_first_invocation_spec`. -/
theorem close_first_invocation_spec_witness :
    lifoSim.pool.closed = false
    ∧ ((Pool.Close mixedClose lifoSim).1 =
          closeSpecErrs mixedClose lifoSim.pool.allDB lifoSim.pool.adminDB.isSome
        ∧ (Pool.Close mixedClose lifoSim).2.closedConns =
            lifoSim.closedConns ++ lifoSim.pool.allDB
        ∧ (∀ h ∈ lifoSim.pool.allDB, mixedClose.nameQueryErr h = none →
            h.name ∈ (Pool.Close mixedClose lifoSim).2.dropped)
        ∧ (Pool.Close mixedClose lifoSim).2.adminClosed =
            (lifoSim.pool.adminDB.isSome || lifoSim.adminClosed)
        ∧ (Pool.Close mixedClose lifoSim).2.pool.closed = true) :=
  ⟨by decide, close_first_invocation_spec mixedClose lifoSim (by decide)⟩

/-! ## C6: `resetDB` always restores the session settings it changes -/

/-- The truncation loop only ever issues `TRUNCATE TABLE` statements. -/
theorem truncLoop_stmts (f : String → Option SqlError) (ts : List String) :
    ∃ ts' : List String, (truncLoop f ts).1 = ts'.map RStmt.truncate := by
  induction ts with
  | nil => exact ⟨[], rfl⟩
  | cons t rest ih =>
    cases hf : f t with
    | some e => exact ⟨[t], by simp [truncLoop, hf]⟩
    | none =>
      obtain ⟨ts', hts⟩ := ih
      cases htl : truncLoop f rest with
      | mk a b =>
        rw [htl] at hts
        exact ⟨t :: ts', by simp [truncLoop, hf, htl, hts]⟩

/-- C6: the deferred restorations in `resetDB` and `listNonEmptyTables`.
(1) Once the cache-expiry setting was read and successfully set to zero,
`listNonEmptyTables` issues the restoring `SET` after the metadata query on
every exit path — whether or not the query or its row scans failed — and when
the restore succeeds the session ends at the original value.  (2) A failing
restore never masks an earlier error: the returned error equals the error of
the same run with a successful restore when that is non-`nil`, and the restore
failure itself otherwise.  (3) Once `resetDB` successfully disabled
foreign-key checks, it re-enables them as the last statement before closing
its connection — whether or not a truncation failed — and when that `SET`
succeeds the session ends with checks on.  (4) A failing re-enable never masks
an earlier truncation error and is reported only when nothing else failed. -/
theorem reset_restores_session_settings :
    (∀ (oL : ListOutcome) (e0 : Int), oL.connErr = none →
      oL.expiryReadErr = none → oL.setZeroErr = none →
      (listNonEmptyTables oL e0).stmts =
        [.readExpiry, .setExpiry 0, .queryTables, .setExpiry e0, .closeConn]
      ∧ (oL.restoreErr = none → (listNonEmptyTables oL e0).finalExpiry = e0))
    ∧ (∀ (oL : ListOutcome) (e0 : Int) (e' : SqlError),
        (listNonEmptyTables { oL with restoreErr := some e' } e0).err =
          some (((listNonEmptyTables { oL with restoreErr := none } e0).err).getD e'))
    ∧ (∀ (oR : ResetOutcome) (e0 : Int),
        (listNonEmptyTables oR.listO e0).err = none → oR.connErr = none →
        oR.fkOffErr = none →
        (∃ ts : List String, (resetDB oR e0).stmts =
          RStmt.setFK 0 :: ts.map RStmt.truncate ++ [RStmt.setFK 1, RStmt.closeConn])
        ∧ (oR.fkOnErr = none → (resetDB oR e0).finalFK = 1))
    ∧ (∀ (oR : ResetOutcome) (e0 : Int) (e' : SqlError),
        (resetDB { oR with fkOnErr := some e' } e0).err =
          some (((resetDB { oR with fkOnErr := none } e0).err).getD e')) := by
  refine ⟨?_, ?_, ?_, ?_⟩
  · intro oL e0 hc hr hz
    cases hq : oL.queryErr <;> cases hs : scanRows oL.rowScans <;>
      cases hre : oL.restoreErr <;>
      simp [listNonEmptyTables, hc, hr, hz, hq, hs, hre]
  · intro oL e0 e'
    cases hc : oL.connErr <;> cases hr : oL.expiryReadErr <;>
      cases hz : oL.setZeroErr <;> cases hq : oL.queryErr <;>
      cases hs : scanRows oL.rowScans <;>
      simp [listNonEmptyTables, hc, hr, hz, hq, hs]
  · intro oR e0 hlr hc hf
    obtain ⟨ts', hts⟩ := truncLoop_stmts oR.truncErr
      ((listNonEmptyTables oR.listO e0).tables.getD [])
    cases htl : truncLoop oR.truncErr
        ((listNonEmptyTables oR.listO e0).tables.getD []) with
    | mk tsts te =>
      rw [htl] at hts
      refine ⟨⟨ts', ?_⟩, ?_⟩
      · simp [resetDB, hlr, hc, hf, htl, hts]
      · intro hfk
        simp [resetDB, hlr, hc, hf, htl, hfk]
  · intro oR e0 e'
    cases hlr : (listNonEmptyTables oR.listO e0).err with
    | some e => simp [resetDB, hlr]
    | none =>
      cases hc : oR.connErr with
      | some e => simp [resetDB, hlr, hc]
      | none =>
        cases hf : oR.fkOffErr with
        | some e => simp [resetDB, hlr, hc, hf]
        | none =>
          cases htl : truncLoop oR.truncErr
              ((listNonEmptyTables oR.listO e0).tables.getD []) with
          | mk tsts te =>
            cases te <;> simp [resetDB, hlr, hc, hf, htl]

/-- Closed-statement witness for `reset_restores_session_settings`. -/
theorem reset_restores_session_settings_witness :
    ((listNonEmptyTables listOkOutcome 42).stmts =
        [.readExpiry, .setExpiry 0, .queryTables, .setExpiry 42, .closeConn]
      ∧ (listOkOutcome.restoreErr = none →
          (listNonEmptyTables listOkOutcome 42).finalExpiry = 42))
    ∧ (listNonEmptyTables { listOkOutcome with restoreErr := some (.engineErr 8) } 42).err =
        some (((listNonEmptyTables { listOkOutcome with restoreErr := none } 42).err).getD
          (.engineErr 8))
    ∧ ((∃ ts : List String, (resetDB resetWitOutcome 42).stmts =
          RStmt.setFK 0 :: ts.map RStmt.truncate ++ [RStmt.setFK 1, RStmt.closeConn])
      ∧ (resetWitOutcome.fkOnErr = none → (resetDB resetWitOutcome 42).finalFK = 1))
    ∧ (resetDB { resetWitOutcome with fkOnErr := some (.engineErr 9) } 42).err =
        some (((resetDB { resetWitOutcome with fkOnErr := none } 42).err).getD
          (.engineErr 9)) :=
  ⟨reset_restores_session_settings.1 listOkOutcome 42 rfl rfl rfl,
   reset_restores_session_settings.2.1 listOkOutcome 42 (.engineErr 8),
   reset_restores_session_settings.2.2.1 resetWitOutcome 42 rfl rfl rfl,
   reset_restores_session_settings.2.2.2 resetWitOutcome 42 (.engineErr 9)⟩

/-! ## C1: cleanup of every database the pool created -/

/-- Extending a name list and the handle list by a matching entry preserves
name containment. -/
theorem names_extend {xs : List String} {hs : List Handle} (k : Nat)
    (nm : String) (hsub : ∀ n ∈ xs, n ∈ hs.map Handle.name) :
    ∀ n ∈ xs ++ [nm], n ∈ (hs ++ [Handle.mk k nm]).map Handle.name := by
  intro n hn
  rw [List.map_append]
  rcases List.mem_append.mp hn with h | h
  · exact List.mem_append.mpr (Or.inl (hsub n h))
  · rcases List.mem_singleton.mp h with rfl
    exact List.mem_append.mpr (Or.inr (by simp))

/-- A leak-free `Get` preserves `CleanupInv`. -/
theorem get_preserves_cleanupInv (o : GetOutcome) (s : Sim)
    (ho : Leakfree o) (hs : CleanupInv s) : CleanupInv (Pool.Get o s).2 := by
  obtain ⟨h1, h2, h3⟩ := ho
  obtain ⟨hclosed, hcr, hdb⟩ := hs
  cases hfree : s.pool.freeDB.getLast? with
  | some db =>
    cases hre : o.resetErr <;>
      exact ⟨by simp [Pool.Get, hclosed, hfree, hre],
        by simpa [Pool.Get, hclosed, hfree, hre] using hcr,
        by simpa [Pool.Get, hclosed, hfree, hre] using hdb⟩
  | none =>
    cases hadm : s.pool.adminDB with
    | some u =>
      cases hrand : o.randErr with
      | some e =>
        have hget : (Pool.Get o s).2 = s := by
          simp [Pool.Get, hclosed, hfree, new, createDB, getAdminDB, hadm, hrand]
        rw [hget]; exact ⟨hclosed, hcr, hdb⟩
      | none =>
        cases hcrt : o.createErr with
        | some e =>
          have hget : (Pool.Get o s).2 = s := by
            simp [Pool.Get, hclosed, hfree, new, createDB, getAdminDB, hadm,
              hrand, hcrt]
          rw [hget]; exact ⟨hclosed, hcr, hdb⟩
        | none =>
          have hget : (Pool.Get o s).2 =
              { s with pool := { s.pool with allDB := s.pool.allDB ++
                                   [⟨s.nextId, dbNameOf o.randBytes⟩] }
                       databases := s.databases ++ [dbNameOf o.randBytes]
                       created := s.created ++ [dbNameOf o.randBytes]
                       nextId := s.nextId + 1 } := by
            simp [Pool.Get, hclosed, hfree, new, createDB, getAdminDB, hadm,
              hrand, hcrt, h1, h2, h3]
          rw [hget]
          exact ⟨hclosed, names_extend s.nextId (dbNameOf o.randBytes) hcr,
            names_extend s.nextId (dbNameOf o.randBytes) hdb⟩
    | none =>
      cases hconn : o.adminConnectErr with
      | some e =>
        have hget : (Pool.Get o s).2 = s := by
          simp [Pool.Get, hclosed, hfree, new, createDB, getAdminDB, hadm, hconn]
        rw [hget]; exact ⟨hclosed, hcr, hdb⟩
      | none =>
        cases hrand : o.randErr with
        | some e =>
          have hget : (Pool.Get o s).2 =
              { s with pool := { s.pool with adminDB := some () } } := by
            simp [Pool.Get, hclosed, hfree, new, createDB, getAdminDB, hadm,
              hconn, hrand]
          rw [hget]; exact ⟨hclosed, hcr, hdb⟩
        | none =>
          cases hcrt : o.createErr with
          | some e =>
            have hget : (Pool.Get o s).2 =
                { s with pool := { s.pool with adminDB := some () } } := by
              simp [Pool.Get, hclosed, hfree, new, createDB, getAdminDB, hadm,
                hconn, hrand, hcrt]
            rw [hget]; exact ⟨hclosed, hcr, hdb⟩
          | none =>
            have hget : (Pool.Get o s).2 =
                { s with pool := { s.pool with adminDB := some ()
                                               allDB := s.pool.allDB ++
                                                 [⟨s.nextId, dbNameOf o.randBytes⟩] }
                         databases := s.databases ++ [dbNameOf o.randBytes]
                         created := s.created ++ [dbNameOf o.randBytes]
                         nextId := s.nextId + 1 } := by
              simp [Pool.Get, hclosed, hfree, new, createDB, getAdminDB, hadm,
                hconn, hrand, hcrt, h1, h2, h3]
            rw [hget]
            exact ⟨hclosed, names_extend s.nextId (dbNameOf o.randBytes) hcr,
              names_extend s.nextId (dbNameOf o.randBytes) hdb⟩

/-- `Put` preserves `CleanupInv`. -/
theorem put_preserves_cleanupInv (h : Handle) (s : Sim) (hs : CleanupInv s) :
    CleanupInv (Pool.Put h s) := by
  obtain ⟨hclosed, hcr, hdb⟩ := hs
  exact ⟨by simp [Pool.Put, hclosed], by simpa [Pool.Put, hclosed] using hcr,
    by simpa [Pool.Put, hclosed] using hdb⟩

/-- Running leak-free commands preserves `CleanupInv`. -/
theorem runCmds_cleanupInv (cmds : List Cmd) (s : Sim)
    (hGood : ∀ o, Cmd.get o ∈ cmds → Leakfree o) (hs : CleanupInv s) :
    CleanupInv (runCmds cmds s) := by
  induction cmds generalizing s with
  | nil => exact hs
  | cons c rest ih =>
    cases c with
    | get o =>
      exact ih _ (fun o' ho' => hGood o' (List.mem_cons_of_mem _ ho'))
        (get_preserves_cleanupInv o s (hGood o (List.mem_cons_self _ _)) hs)
    | put h =>
      exact ih _ (fun o' ho' => hGood o' (List.mem_cons_of_mem _ ho'))
        (put_preserves_cleanupInv h s hs)

/-- The `Close` loop when every name query and every drop succeeds: a drop is
issued for every handle's database, `created` is untouched, and exactly the
handles' databases disappear from the engine. -/
theorem closeLoop_all_ok (co : CloseOutcome) (hs : List Handle) (s : Sim)
    (errs : List SqlError) (hq : ∀ h, co.nameQueryErr h = none)
    (hd : ∀ h, co.dropErr h = none) :
    (closeLoop co hs s errs).2.dropped = s.dropped ++ hs.map Handle.name
    ∧ (closeLoop co hs s errs).2.created = s.created
    ∧ (∀ n, n ∈ (closeLoop co hs s errs).2.databases ↔
        (n ∈ s.databases ∧ n ∉ hs.map Handle.name)) := by
  induction hs generalizing s errs with
  | nil => simp [closeLoop]
  | cons h t ih =>
    have hstep : closeLoop co (h :: t) s errs =
        closeLoop co t
          { s with databases := s.databases.filter (· ≠ h.name)
                   dropped := s.dropped ++ [h.name]
                   closedConns := s.closedConns ++ [h] }
          (errs ++ (co.closeErr h).toList) := by
      simp [closeLoop, dropDB, hq h, hd h]
    rw [hstep]
    obtain ⟨i1, i2, i3⟩ := ih
      { s with databases := s.databases.filter (· ≠ h.name)
               dropped := s.dropped ++ [h.name]
               closedConns := s.closedConns ++ [h] }
      (errs ++ (co.closeErr h).toList)
    refine ⟨by rw [i1]; simp, i2, ?_⟩
    intro n
    rw [i3 n]
    simp only [List.mem_filter, List.map_cons, List.mem_cons,
      decide_not, Bool.not_eq_eq_eq_not, Bool.not_true, decide_eq_false_iff_not]
    tauto

/-- C1 (amended): run any sequence of `Get`/`Put` commands on a fresh pool in
which no `Get` fails after its `CREATE DATABASE` succeeded (so every created
database belongs to a handle recorded in `allDB`), then `Close` with all name
queries and drop statements succeeding: every database name whose creation
succeeded has had a drop-database statement issued for it, and no database
created by the pool remains on the engine. -/
theorem close_drops_every_recorded_database (cmds : List Cmd)
    (co : CloseOutcome) (hGood : ∀ o, Cmd.get o ∈ cmds → Leakfree o)
    (hq : ∀ h, co.nameQueryErr h = none) (hd : ∀ h, co.dropErr h = none) :
    (∀ n ∈ (runCmds cmds initSim).created,
      n ∈ (Pool.Close co (runCmds cmds initSim)).2.dropped)
    ∧ (Pool.Close co (runCmds cmds initSim)).2.databases = [] := by
  obtain ⟨hclosed, hcr, hdb⟩ := runCmds_cleanupInv cmds initSim hGood
    ⟨rfl, by simp [initSim], by simp [initSim]⟩
  obtain ⟨j1, j2, j3⟩ := closeLoop_all_ok co (runCmds cmds initSim).pool.allDB
    { runCmds cmds initSim with
      pool := { (runCmds cmds initSim).pool with closed := true } } [] hq hd
  cases hloop : closeLoop co (runCmds cmds initSim).pool.allDB
      { runCmds cmds initSim with
        pool := { (runCmds cmds initSim).pool with closed := true } } [] with
  | mk errsL s2 =>
    rw [hloop] at j1 j2 j3
    have j1' : s2.dropped = (runCmds cmds initSim).dropped ++
        (runCmds cmds initSim).pool.allDB.map Handle.name := by simpa using j1
    have j3' : ∀ n, n ∈ s2.databases ↔ (n ∈ (runCmds cmds initSim).databases
        ∧ n ∉ (runCmds cmds initSim).pool.allDB.map Handle.name) := by
      simpa using j3
    have hdrop : (Pool.Close co (runCmds cmds initSim)).2.dropped =
        s2.dropped := by
      simp only [Pool.Close, hclosed, Bool.false_eq_true, if_false, hloop]
      cases s2.pool.adminDB <;> simp
    have hdbs : (Pool.Close co (runCmds cmds initSim)).2.databases =
        s2.databases := by
      simp only [Pool.Close, hclosed, Bool.false_eq_true, if_false, hloop]
      cases s2.pool.adminDB <;> simp
    constructor
    · intro n hn
      rw [hdrop, j1']
      exact List.mem_append.mpr (Or.inr (hcr n hn))
    · rw [hdbs]
      rw [List.eq_nil_iff_forall_not_mem]
      intro n hn
      exact ((j3' n).mp hn).2 (hdb n ((j3' n).mp hn).1)

/-- Closed-statement witness for `close_drops_every_recorded_database`. -/
theorem close_drops_every_recorded_database_witness :
    (∀ o, Cmd.get o ∈ [Cmd.get allOkGet] → Leakfree o)
    ∧ (∀ h, okCloseDummy.nameQueryErr h = none)
    ∧ (∀ h, okCloseDummy.dropErr h = none)
    ∧ ((∀ n ∈ (runCmds [Cmd.get allOkGet] initSim).created,
          n ∈ (Pool.Close okCloseDummy (runCmds [Cmd.get allOkGet] initSim)).2.dropped)
      ∧ (Pool.Close okCloseDummy (runCmds [Cmd.get allOkGet] initSim)).2.databases = []) :=
  have hg : ∀ o, Cmd.get o ∈ [Cmd.get allOkGet] → Leakfree o := by
    intro o ho
    have heq : Cmd.get o = Cmd.get allOkGet := List.mem_singleton.mp ho
    cases heq
    exact ⟨rfl, rfl, rfl⟩
  ⟨hg, fun _ => rfl, fun _ => rfl,
    close_drops_every_recorded_database [Cmd.get allOkGet] okCloseDummy hg
      (fun _ => rfl) (fun _ => rfl)⟩

/-- C1 counterexample: a single `Get` whose `CREATE DATABASE` succeeds but
whose DDL initialization fails produces a database name that `Close` never
drops — the handle was never recorded in `allDB` — so after `Close` a
database created by the pool still exists on the engine, contradicting the
claim that every successfully created database has a drop issued for it. -/
theorem close_misses_db_created_by_failed_get :
    dbNameOf initFailGet.randBytes ∈ (runCmds [Cmd.get initFailGet] initSim).created
    ∧ (Pool.Close okCloseDummy (runCmds [Cmd.get initFailGet] initSim)).2.dropped = []
    ∧ (Pool.Close okCloseDummy (runCmds [Cmd.get initFailGet] initSim)).2.databases =
        [dbNameOf initFailGet.randBytes] := by
  decide
